import Mathlib

/-!
Shallow embedding of `src/slotmap.hpp` (class `slotmap_t`), instantiated at the
default `size_type = uint32_t`.  Machine integers are modelled as `Nat` with
explicit reduction modulo `W = 2^32` exactly where the C++ unsigned arithmetic
can wrap.  The key table and the item table are modelled as total functions
`Nat → _` together with the counts `key_count` / `item_count`; a read past the
initialised region returns whatever junk value the function holds there, which
mirrors reading uninitialised or out-of-range memory (no theorem below depends
on such a value, except to exhibit that the code does reach such an index).
The `union { item_offset; next_free }` inside `key_t` is a single cell `off`,
since both members are the same unsigned type.  C++ `assert` is modelled by
returning `none` (`expand_allocation`, and hence `add`, are `Option`-valued);
`remove` contains no assert and is total, faithfully to the source.
-/

namespace Slotmap

/-- 2^32, the modulus of `uint32_t` arithmetic. -/
def W : Nat := 4294967296

/-- `items_per_allocation = 256 * sizeof(size_type)` for `uint32_t`. -/
def items_per_allocation : Nat := 1024

/-- `min_free_keys = 8 * sizeof(size_type)` for `uint32_t`. -/
def min_free_keys : Nat := 32

/-- `max_items = numeric_limits<uint32_t>::max()`. -/
def max_items : Nat := 4294967295

/-- `key_t`: `off` is the union cell holding `item_offset` (slot occupied) or
`next_free` (slot free); `item_id` is the slot's generation counter. -/
structure key_t where
  off : Nat
  item_id : Nat
deriving DecidableEq

/-- `handle_t`: field order matters (`key_offset` first, then `item_id`),
because the source constructs handles with positional aggregate initialisers. -/
structure handle_t where
  key_offset : Nat
  item_id : Nat
deriving DecidableEq

/-- `item_store_t`: the stored item plus the back-reference to its key slot. -/
structure item_store_t (α : Type) where
  item : α
  self_key_offset : Nat
deriving DecidableEq

/-- The state of a `slotmap_t`. -/
structure State (α : Type) where
  keys : Nat → key_t
  items : Nat → item_store_t α
  item_count : Nat
  key_count : Nat
  freelist_head : Nat
  freelist_tail : Nat

/-- Pointwise array write. -/
def upd {β : Type} (f : Nat → β) (i : Nat) (v : β) : Nat → β :=
  fun j => if j = i then v else f j

/-- The constructor `slotmap_t()`.  `junkK`/`junkI` stand for the contents of
the `malloc`-ed memory outside the initialised region (the constructor writes
`item_id = 0`, `next_free = index + 1` only for `index < key_count`, and never
touches the item region at all). -/
def slotmap_init {α : Type} (junkK : Nat → key_t) (junkI : Nat → item_store_t α) : State α :=
  { keys := fun i => if i < items_per_allocation then { off := i + 1, item_id := 0 } else junkK i
    items := junkI
    item_count := 0
    key_count := items_per_allocation
    freelist_head := 0
    freelist_tail := (items_per_allocation + (W - 1)) % W }

/-- `expand_allocation()`.  The `assert((size_t)key_count + items_per_allocation
<= max_items)` is modelled by returning `none`.  The `realloc` + `memcpy` keep
every key and item at its old index, so only the new key range is (re)written. -/
def expand_allocation {α : Type} (s : State α) : Option (State α) :=
  if s.key_count + items_per_allocation > max_items then none
  else
    let old_key_count := s.key_count
    let kc := s.key_count + items_per_allocation
    let keys1 : Nat → key_t :=
      fun i => if old_key_count ≤ i ∧ i < kc then { off := i + 1, item_id := 0 } else s.keys i
    let keys2 := upd keys1 s.freelist_tail { keys1 s.freelist_tail with off := old_key_count }
    some { s with keys := keys2, key_count := kc, freelist_tail := (kc + (W - 1)) % W }

/-- The body of `add` after the possible expansion: pop the freelist head,
record `item_offset = item_count`, bump `item_count`, construct the item. -/
def add_post {α : Type} (x : α) (s1 : State α) : handle_t × State α :=
  let key := s1.keys s1.freelist_head
  let h : handle_t := { key_offset := s1.freelist_head, item_id := key.item_id }
  let keys1 := upd s1.keys s1.freelist_head { key with off := s1.item_count }
  let items1 := upd s1.items s1.item_count { item := x, self_key_offset := s1.freelist_head }
  (h, { s1 with keys := keys1, items := items1,
                item_count := (s1.item_count + 1) % W,
                freelist_head := key.off })

/-- `add(args...)`.  The growth trigger compares `item_count` with
`key_count - min_free_keys` in `uint32_t` arithmetic. -/
def add {α : Type} (x : α) (s : State α) : Option (handle_t × State α) :=
  if s.item_count = (s.key_count + (W - min_free_keys)) % W then
    (expand_allocation s).map (add_post x)
  else
    some (add_post x s)

/-- `remove(handle_t)`.  `trivialDtor` is the compile-time
`std::is_trivially_destructible_v<item_type>` branch selector.  Value
semantics: the destructor call in the `item_count == 0` branch leaves the
modelled item region unchanged; the move-assignment copies the whole
`item_store_t`.  `item_count -= 1` wraps in `uint32_t` arithmetic. -/
def remove {α : Type} (trivialDtor : Bool) (h : handle_t) (s : State α) : Bool × State α :=
  if h.key_offset ≥ s.key_count then (false, s)
  else
    let key0 := s.keys h.key_offset
    if h.item_id ≠ key0.item_id then (false, s)
    else
      let ic := (s.item_count + (W - 1)) % W
      let last := s.items ic
      let keys1 := upd s.keys last.self_key_offset
        { s.keys last.self_key_offset with off := key0.off }
      let items1 :=
        if trivialDtor then upd s.items key0.off (s.items ic)
        else if ic = 0 then s.items
        else upd s.items key0.off (s.items ic)
      let keys2 := upd keys1 s.freelist_tail { keys1 s.freelist_tail with off := h.key_offset }
      let keys3 := upd keys2 h.key_offset
        { keys2 h.key_offset with item_id := (key0.item_id + 1) % W }
      (true, { keys := keys3, items := items1, item_count := ic,
               key_count := s.key_count, freelist_head := s.freelist_head,
               freelist_tail := h.key_offset })

/-- Mirror of `remove`'s control flow, reporting whether the line
`items[key.item_offset] = std::move(last_item)` executes with source and
destination being the same slot (a self-move-assignment). -/
def remove_self_assigns {α : Type} (trivialDtor : Bool) (h : handle_t) (s : State α) : Bool :=
  if h.key_offset ≥ s.key_count then false
  else
    let key0 := s.keys h.key_offset
    if h.item_id ≠ key0.item_id then false
    else
      let ic := (s.item_count + (W - 1)) % W
      if trivialDtor then decide (key0.off = ic)
      else if ic = 0 then false
      else decide (key0.off = ic)

/-- `shrink_allocation()`: resets `key_count` to `items_per_allocation`
(keys below the new count keep their contents; the item region is garbage
afterwards in the C++, but it is only ever called with `item_count == 0`). -/
def shrink_allocation {α : Type} (s : State α) : State α :=
  if s.key_count = items_per_allocation then s
  else { s with key_count := items_per_allocation }

/-- `clear(bool shrink)`: destroy all items (`item_count = 0`), optionally
shrink, then rebuild the freelist over the whole key table, bumping every
slot's generation. -/
def clear {α : Type} (shrink : Bool) (s : State α) : State α :=
  let s1 := { s with item_count := 0 }
  let s2 := if shrink then shrink_allocation s1 else s1
  { s2 with
    keys := fun i =>
      if i < s2.key_count then { off := i + 1, item_id := ((s2.keys i).item_id + 1) % W }
      else s2.keys i
    freelist_head := 0
    freelist_tail := (s2.key_count + (W - 1)) % W }

/-- `is_valid_handle(handle_t)`. -/
def is_valid_handle {α : Type} (h : handle_t) (s : State α) : Bool :=
  if h.key_offset ≥ s.key_count then false
  else if h.item_id ≠ (s.keys h.key_offset).item_id then false
  else true

/-- `operator[](handle_t)`: `none` models the null pointer, `some` the
dereferenced item value. -/
def lookup {α : Type} (h : handle_t) (s : State α) : Option α :=
  if h.key_offset ≥ s.key_count then none
  else
    let key := s.keys h.key_offset
    if h.item_id ≠ key.item_id then none
    else some (s.items key.off).item

/-- Companion of `lookup` with the same guards, returning the dense index
`key.item_offset` that `operator[]` dereferences in the item region. -/
def lookup_index {α : Type} (h : handle_t) (s : State α) : Option Nat :=
  if h.key_offset ≥ s.key_count then none
  else
    let key := s.keys h.key_offset
    if h.item_id ≠ key.item_id then none
    else some key.off

/-- `get_handle(size_type index)` (pure, no state change). -/
def get_handle {α : Type} (index : Nat) (s : State α) : handle_t :=
  let stored_item := s.items index
  { key_offset := stored_item.self_key_offset
    item_id := (s.keys stored_item.self_key_offset).item_id }

/-- `insert(item, at)`: `at_` is the dense position the iterator points to.
The returned handle is built, faithfully to the source, with the positional
initialiser `handle_t{key.item_id, self_key_offset}` — i.e. `key_offset`
receives the bumped generation and `item_id` receives the slot offset. -/
def insert {α : Type} (x : α) (at_ : Nat) (s : State α) : handle_t × State α :=
  let sk := (s.items at_).self_key_offset
  let key := s.keys sk
  let id1 := (key.item_id + 1) % W
  let keys1 := upd s.keys sk { key with item_id := id1 }
  let items1 := upd s.items at_ { s.items at_ with item := x }
  ({ key_offset := id1, item_id := sk }, { s with keys := keys1, items := items1 })

/-- Iterated `remove` of the same slot, each call passing the slot's current
generation (so every call validates and succeeds). -/
def iterRemoves {α : Type} (trivialDtor : Bool) (slot : Nat) : Nat → State α → State α
  | 0, s => s
  | n + 1, s => iterRemoves trivialDtor slot n (remove trivialDtor ⟨slot, (s.keys slot).item_id⟩ s).2

/-- Key-table well-formedness: every key's union cell (`item_offset` /
`next_free`) is at most `key_count`.  Established by the constructor and
preserved by the operations; note `next_free` of the last slot legitimately
equals `key_count` (the source comment: points one off the end). -/
def WFKeys {α : Type} (s : State α) : Prop :=
  ∀ i, i < s.key_count → (s.keys i).off ≤ s.key_count

/-- A fresh `slotmap_t<uint32_t, uint32_t>` with all junk memory zeroed. -/
def init0 : State Nat := slotmap_init (fun _ => ⟨0, 0⟩) (fun _ => ⟨0, 0⟩)

/-- The container after `add(7)` on a fresh map (one live item at dense 0,
owned by slot 0; the returned handle is `{0, 0}`). -/
def s9 : State Nat := ((add 7 init0).getD (⟨0, 0⟩, init0)).2

/-- The container after `add(7); add(8)` (items at dense 0 and 1, owned by
slots 0 and 1). -/
def sAB : State Nat := ((add 8 s9).getD (⟨0, 0⟩, s9)).2

/-- `s9` after successfully removing handle `{0, 0}` (slot 0 free again with
generation 1). -/
def s6start : State Nat := (remove false ⟨0, 0⟩ s9).2

/-- `init0` after one `expand_allocation` (key table grown to 2048 slots, as
`add` does when the free reserve is exhausted). -/
def sExp : State Nat := (expand_allocation init0).getD init0

/-! ## Helper lemmas -/

lemma remove_guards {α : Type} (td : Bool) (h : handle_t) (s : State α)
    (hs : (remove td h s).1 = true) :
    h.key_offset < s.key_count ∧ h.item_id = (s.keys h.key_offset).item_id := by
  by_cases g1 : h.key_offset ≥ s.key_count
  · simp only [remove] at hs
    rw [if_pos g1] at hs
    simp at hs
  · by_cases g2 : h.item_id ≠ (s.keys h.key_offset).item_id
    · simp only [remove] at hs
      rw [if_neg g1, if_pos g2] at hs
      simp at hs
    · exact ⟨by omega, of_not_not g2⟩

lemma remove_success_state {α : Type} (td : Bool) (h : handle_t) (s : State α)
    (g1 : h.key_offset < s.key_count) (g2 : h.item_id = (s.keys h.key_offset).item_id) :
    (remove td h s).1 = true ∧
    (remove td h s).2.key_count = s.key_count ∧
    ((remove td h s).2.keys h.key_offset).item_id = ((s.keys h.key_offset).item_id + 1) % W := by
  simp only [remove]
  rw [if_neg (by omega), if_neg (by simp [g2])]
  refine ⟨rfl, rfl, ?_⟩
  simp [upd]

lemma succ_mod_ne (n : Nat) : ¬ n = (n + 1) % W := by
  simp only [W]
  omega

lemma expand_shape {α : Type} (s s2 : State α) (he : expand_allocation s = some s2) :
    s2.freelist_head = s.freelist_head ∧ s2.item_count = s.item_count ∧
    s2.key_count = s.key_count + items_per_allocation := by
  simp only [expand_allocation] at he
  by_cases g : s.key_count + items_per_allocation > max_items
  · rw [if_pos g] at he
    exact Option.noConfusion he
  · rw [if_neg g] at he
    have h2 := Option.some.inj he
    rw [← h2]
    exact ⟨rfl, rfl, rfl⟩

lemma wf_init {α : Type} (junkK : Nat → key_t) (junkI : Nat → item_store_t α) :
    WFKeys (slotmap_init junkK junkI) := by
  intro i hi
  simp only [slotmap_init] at hi ⊢
  rw [if_pos hi]
  exact hi

lemma lookup_bound {α : Type} (s : State α) (h : handle_t) (hw : WFKeys s) :
    (lookup h s = none ∧ lookup_index h s = none) ∨
    (h.key_offset < s.key_count ∧
     lookup_index h s = some ((s.keys h.key_offset).off) ∧
     (s.keys h.key_offset).off ≤ s.key_count) := by
  by_cases g1 : h.key_offset ≥ s.key_count
  · left
    simp only [lookup, lookup_index]
    rw [if_pos g1, if_pos g1]
    exact ⟨rfl, rfl⟩
  · by_cases g2 : h.item_id ≠ (s.keys h.key_offset).item_id
    · left
      simp only [lookup, lookup_index]
      rw [if_neg g1, if_neg g1, if_pos g2, if_pos g2]
      exact ⟨rfl, rfl⟩
    · right
      refine ⟨by omega, ?_, hw _ (by omega)⟩
      simp only [lookup_index]
      rw [if_neg g1, if_neg g2]

lemma wf_remove {α : Type} (td : Bool) (h : handle_t) (s : State α) (hw : WFKeys s) :
    WFKeys (remove td h s).2 := by
  by_cases g1 : h.key_offset ≥ s.key_count
  · simp only [remove]
    rw [if_pos g1]
    exact hw
  · by_cases g2 : h.item_id ≠ (s.keys h.key_offset).item_id
    · simp only [remove]
      rw [if_neg g1, if_pos g2]
      exact hw
    · simp only [remove]
      rw [if_neg g1, if_neg g2]
      intro i hi
      have hi2 : i < s.key_count := hi
      have hk0 : (s.keys h.key_offset).off ≤ s.key_count := hw _ (by omega)
      dsimp only [upd]
      split_ifs <;>
        first
        | exact hk0
        | exact (show h.key_offset ≤ s.key_count by omega)
        | exact hw _ hi2

lemma wf_expand {α : Type} (s s2 : State α) (hw : WFKeys s)
    (he : expand_allocation s = some s2) : WFKeys s2 := by
  simp only [expand_allocation] at he
  by_cases g : s.key_count + items_per_allocation > max_items
  · rw [if_pos g] at he
    exact Option.noConfusion he
  · rw [if_neg g] at he
    have h2 := Option.some.inj he
    rw [← h2]
    intro i hi
    have hi2 : i < s.key_count + items_per_allocation := hi
    dsimp only [upd]
    split_ifs <;>
      first
      | exact (show s.key_count ≤ s.key_count + items_per_allocation by omega)
      | exact (show i + 1 ≤ s.key_count + items_per_allocation by omega)
      | exact le_trans (hw _ (by omega)) (Nat.le_add_right _ _)

lemma wf_add_post {α : Type} (x : α) (s1 : State α) (hw : WFKeys s1)
    (hic : s1.item_count ≤ s1.key_count) :
    WFKeys (add_post x s1).2 := by
  intro i hi
  have hi2 : i < s1.key_count := hi
  dsimp only [add_post, upd]
  split_ifs
  · exact (show s1.item_count ≤ s1.key_count from hic)
  · exact hw _ hi2

lemma wf_add {α : Type} (x : α) (s : State α) (h1 : handle_t) (s1 : State α)
    (hw : WFKeys s) (hic : s.item_count ≤ s.key_count)
    (ha : add x s = some (h1, s1)) : WFKeys s1 := by
  simp only [add] at ha
  split_ifs at ha with g
  · cases he : expand_allocation s with
    | none =>
      rw [he] at ha
      simp at ha
    | some s2 =>
      rw [he] at ha
      simp only [Option.map_some'] at ha
      have h2 := Option.some.inj ha
      have e2 : s1 = (add_post x s2).2 := by rw [h2]
      rw [e2]
      obtain ⟨-, hicr, hkcr⟩ := expand_shape s s2 he
      exact wf_add_post x s2 (wf_expand s s2 hw he) (by omega)
  · have h2 := Option.some.inj ha
    have e2 : s1 = (add_post x s).2 := by rw [h2]
    rw [e2]
    exact wf_add_post x s hw hic

lemma wf_clear {α : Type} (b : Bool) (s : State α) : WFKeys (clear b s) := by
  intro i hi
  dsimp only [clear] at hi ⊢
  rw [if_pos hi]
  dsimp only
  omega

lemma add_post_keeps_id {α : Type} (x : α) (s1 : State α) :
    (add_post x s1).1.item_id = ((add_post x s1).2.keys (add_post x s1).1.key_offset).item_id := by
  dsimp only [add_post, upd]
  rw [if_pos rfl]

lemma lookup_add_post {α : Type} (x : α) (s1 : State α)
    (hh : s1.freelist_head < s1.key_count) :
    lookup (add_post x s1).1 (add_post x s1).2 = some x := by
  have hg : ¬ (s1.key_count ≤ s1.freelist_head) := Nat.not_le.mpr hh
  simp [lookup, add_post, upd, hg]

lemma shrink_allocation_key_count {α : Type} (s : State α) :
    (shrink_allocation s).key_count = items_per_allocation := by
  unfold shrink_allocation
  split_ifs with g
  · exact g
  · rfl

/-! ## C1 -/

/-- C1 (counterexample): on a fresh container every slot is free and was never
occupied, yet the handle `{0, 0}` is accepted by all three of
`is_valid_handle`, `operator[]` and `remove` — the code checks only the offset
range and the generation, never occupancy. -/
theorem C1_counterexample :
    init0.item_count = 0 ∧
    is_valid_handle ⟨0, 0⟩ init0 = true ∧
    (lookup ⟨0, 0⟩ init0).isSome = true ∧
    (remove false ⟨0, 0⟩ init0).1 = true := by decide

/-- C1 (amended): `is_valid_handle`, `operator[]` and `remove` accept a handle
iff its `key_offset` is below `key_count` and its generation equals the slot's
current generation; occupancy of the slot is not part of the check, so a
handle naming a currently free slot with matching generation is accepted. -/
theorem C1_amended_validation {α : Type} (td : Bool) (h : handle_t) (s : State α) :
    (is_valid_handle h s = true ↔
      h.key_offset < s.key_count ∧ h.item_id = (s.keys h.key_offset).item_id) ∧
    ((lookup h s).isSome = true ↔
      h.key_offset < s.key_count ∧ h.item_id = (s.keys h.key_offset).item_id) ∧
    ((remove td h s).1 = true ↔
      h.key_offset < s.key_count ∧ h.item_id = (s.keys h.key_offset).item_id) := by
  by_cases g1 : h.key_offset ≥ s.key_count
  · simp only [is_valid_handle, lookup, remove]
    rw [if_pos g1, if_pos g1, if_pos g1]
    refine ⟨?_, ?_, ?_⟩ <;>
      exact iff_of_false (by simp) fun hc => absurd hc.1 (by omega)
  · by_cases g2 : h.item_id ≠ (s.keys h.key_offset).item_id
    · simp only [is_valid_handle, lookup, remove]
      rw [if_neg g1, if_neg g1, if_neg g1, if_pos g2, if_pos g2, if_pos g2]
      refine ⟨?_, ?_, ?_⟩ <;>
        exact iff_of_false (by simp) fun hc => absurd hc.2 g2
    · simp only [is_valid_handle, lookup, remove]
      rw [if_neg g1, if_neg g1, if_neg g1, if_neg g2, if_neg g2, if_neg g2]
      refine ⟨?_, ?_, ?_⟩ <;>
        exact iff_of_true (by simp) ⟨by omega, of_not_not g2⟩

/-! ## C3 -/

/-- C3 (evaluation at the failing input): removing the item at the last dense
position of a two-item container succeeds and executes
`items[key.item_offset] = std::move(last_item)` with source equal to
destination — a self-move-assignment — because the guard tests
`item_count == 0` instead of comparing the vacated slot with the last one.
For a trivially destructible item type even removing the only item
self-assigns; the guard works only in the non-trivial single-item case. -/
theorem C3_self_assignment_eval :
    (remove false ⟨1, 0⟩ sAB).1 = true ∧
    remove_self_assigns false ⟨1, 0⟩ sAB = true ∧
    remove_self_assigns true ⟨0, 0⟩ s9 = true ∧
    remove_self_assigns false ⟨0, 0⟩ s9 = false := by decide

/-! ## C4 -/

/-- C4 (counterexample): after the key table has grown once (2048 slots),
`clear(true)` shrinks it back to `items_per_allocation = 1024` slots — the key
table does shrink under a public operation. -/
theorem C4_counterexample :
    sExp.key_count = 2048 ∧ (clear true sExp).key_count = 1024 := by decide

set_option maxRecDepth 4096 in
/-- C4 (amended): `key_count` never decreases under `add`, `remove`, and
`clear(shrink = false)` (lookups and `get_handle` do not mutate the state at
all); but `clear(shrink = true)` calls `shrink_allocation`, which resets
`key_count` to `items_per_allocation`, shrinking the key table whenever it had
grown beyond the initial block. -/
theorem C4_amended_key_table {α : Type} (x : α) (td : Bool) (h : handle_t) (s : State α) :
    (match add x s with
     | none => True
     | some (_, s1) => s.key_count ≤ s1.key_count) ∧
    (remove td h s).2.key_count = s.key_count ∧
    (clear false s).key_count = s.key_count ∧
    (clear true s).key_count = items_per_allocation := by
  refine ⟨?_, ?_, ?_, ?_⟩
  · by_cases g1 : s.item_count = (s.key_count + (W - min_free_keys)) % W
    · rw [add, if_pos g1]
      by_cases g2 : s.key_count + items_per_allocation > max_items
      · rw [expand_allocation, if_pos g2]
        exact trivial
      · rw [expand_allocation, if_neg g2]
        show s.key_count ≤ s.key_count + items_per_allocation
        omega
    · rw [add, if_neg g1]
      show s.key_count ≤ s.key_count
      exact Nat.le_refl _
  · by_cases g1 : h.key_offset ≥ s.key_count
    · simp only [remove]
      rw [if_pos g1]
    · by_cases g2 : h.item_id ≠ (s.keys h.key_offset).item_id
      · simp only [remove]
        rw [if_neg g1, if_pos g2]
      · simp only [remove]
        rw [if_neg g1, if_neg g2]
  · rfl
  · show (shrink_allocation { s with item_count := 0 }).key_count = items_per_allocation
    exact shrink_allocation_key_count _

/-! ## C7 -/

/-- C7: `remove` on a handle whose offset is out of range or whose generation
does not match the slot's returns `false` and leaves the whole state
unchanged (both early returns happen before any mutation). -/
theorem C7_remove_invalid_noop {α : Type} (td : Bool) (h : handle_t) (s : State α)
    (hbad : s.key_count ≤ h.key_offset ∨ h.item_id ≠ (s.keys h.key_offset).item_id) :
    remove td h s = (false, s) := by
  rcases hbad with hb | hb
  · simp only [remove]
    rw [if_pos hb]
  · by_cases g1 : h.key_offset ≥ s.key_count
    · simp only [remove]
      rw [if_pos g1]
    · simp only [remove]
      rw [if_neg g1, if_pos hb]

/-- C7 (witness): a concrete out-of-range remove on the fresh container. -/
theorem C7_witness : remove false ⟨2000, 5⟩ init0 = (false, init0) :=
  C7_remove_invalid_noop false ⟨2000, 5⟩ init0 (Or.inl (by decide))

/-! ## C10 -/

/-- C10 (evaluation at the failing input): on a container holding item `7` at
dense position 0 (owned by slot 0, generation 0), `insert(9, begin())` bumps
slot 0's generation to 1 but returns the handle `{key_offset := 1,
item_id := 0}` — the positional initialiser `handle_t{key.item_id,
self_key_offset}` swaps the fields.  Looking up the returned handle resolves
slot 1 (a free slot whose generation happens to match) to dense index 2, junk
memory, not the inserted item; the field-swapped handle `{0, 1}` does resolve
to the inserted item at dense index 0. -/
theorem C10_insert_handle_eval :
    (insert 9 0 s9).1 = ⟨1, 0⟩ ∧
    ((insert 9 0 s9).2.keys 0).item_id = 1 ∧
    ((insert 9 0 s9).2.items 0).item = 9 ∧
    lookup ⟨1, 0⟩ (insert 9 0 s9).2 = some 0 ∧
    lookup_index ⟨1, 0⟩ (insert 9 0 s9).2 = some 2 ∧
    lookup ⟨0, 1⟩ (insert 9 0 s9).2 = some 9 ∧
    lookup_index ⟨0, 1⟩ (insert 9 0 s9).2 = some 0 := by decide

/-! ## C2 -/

/-- C2 (counterexample): on a fresh container the handle `{1023, 0}` names the
last (free, never-occupied) key slot, whose free-list link `next_free` is
`1024 = key_count` — one past the end of the initialised key range and of the
allocated item region (which has exactly `key_count` entries, indices
`0 .. key_count - 1`).  `operator[]` accepts the handle and dereferences dense
index `key_count`, outside the allocated bounds. -/
theorem C2_counterexample :
    (lookup ⟨1023, 0⟩ init0).isSome = true ∧
    lookup_index ⟨1023, 0⟩ init0 = some init0.key_count := by decide

/-- C2 (amended): the key-slot read of `operator[]` is always bounds-checked
(`key_offset < key_count` before the key is read), and under the key-table
invariant `WFKeys` — established by the constructor and preserved by `remove`,
`add` (in any state with `item_count ≤ key_count`) and `clear` — the dense
index it dereferences is at most `key_count`.  The bound is tight: the index
can equal `key_count`, one past the allocated item region, as the
counterexample shows, so the original claim's "within the allocated bounds"
fails while `key_count` itself is never exceeded. -/
theorem C2_amended_lookup_safety :
    (∀ (α : Type) (junkK : Nat → key_t) (junkI : Nat → item_store_t α),
        WFKeys (slotmap_init junkK junkI)) ∧
    (∀ (α : Type) (s : State α) (h : handle_t), WFKeys s →
        (lookup h s = none ∧ lookup_index h s = none) ∨
        (h.key_offset < s.key_count ∧
         lookup_index h s = some ((s.keys h.key_offset).off) ∧
         (s.keys h.key_offset).off ≤ s.key_count)) ∧
    (∀ (α : Type) (td : Bool) (h : handle_t) (s : State α), WFKeys s →
        WFKeys (remove td h s).2) ∧
    (∀ (α : Type) (x : α) (s : State α) (h1 : handle_t) (s1 : State α),
        WFKeys s → s.item_count ≤ s.key_count → add x s = some (h1, s1) → WFKeys s1) ∧
    (∀ (α : Type) (b : Bool) (s : State α), WFKeys (clear b s)) :=
  ⟨fun _ => wf_init, fun _ => lookup_bound, fun _ => wf_remove,
   fun _ => wf_add, fun _ => wf_clear⟩

/-- C2 (witness): the lookup-bound part of the amended theorem evaluated on
the fresh container at the handle of the counterexample. -/
theorem C2_witness :
    (lookup ⟨1023, 0⟩ init0 = none ∧ lookup_index ⟨1023, 0⟩ init0 = none) ∨
    ((⟨1023, 0⟩ : handle_t).key_offset < init0.key_count ∧
     lookup_index ⟨1023, 0⟩ init0 = some ((init0.keys 1023).off) ∧
     (init0.keys 1023).off ≤ init0.key_count) :=
  C2_amended_lookup_safety.2.1 Nat init0 ⟨1023, 0⟩
    (C2_amended_lookup_safety.1 Nat (fun _ => ⟨0, 0⟩) (fun _ => ⟨0, 0⟩))

/-! ## C5 -/

/-- C5 (counterexample): the very first `add` on a fresh container succeeds
and returns the handle `{0, 0}` — its generation is the reserved value `0`,
not `1`: `add` hands out the slot's current generation unchanged, and slots
are born with generation `0`. -/
theorem C5_counterexample :
    init0.item_count = 0 ∧ (add 7 init0).map Prod.fst = some ⟨0, 0⟩ := by decide

/-- C5 (amended): every slot is born free with generation `0`, and `add`
returns the claimed slot's current generation without bumping it (the
generation is bumped on `remove`, not on `add`); hence the first occupancy of
a slot carries generation `0`, and generation `0` is routinely produced by
successful insertions — it is not a reserved null value in this code. -/
theorem C5_amended_add_generation :
    (∀ (α : Type) (junkK : Nat → key_t) (junkI : Nat → item_store_t α) (i : Nat),
        i < items_per_allocation → ((slotmap_init junkK junkI).keys i).item_id = 0) ∧
    (∀ (α : Type) (x : α) (s : State α) (h1 : handle_t) (s1 : State α),
        add x s = some (h1, s1) → h1.item_id = (s1.keys h1.key_offset).item_id) := by
  constructor
  · intro α jK jI i hi
    dsimp only [slotmap_init]
    rw [if_pos hi]
  · intro α x s h1 s1 ha
    simp only [add] at ha
    split_ifs at ha with g
    · cases he : expand_allocation s with
      | none =>
        rw [he] at ha
        simp at ha
      | some s2 =>
        rw [he] at ha
        simp only [Option.map_some'] at ha
        have h2 := Option.some.inj ha
        have e1 : h1 = (add_post x s2).1 := by rw [h2]
        have e2 : s1 = (add_post x s2).2 := by rw [h2]
        rw [e1, e2]
        exact add_post_keeps_id x s2
    · have h2 := Option.some.inj ha
      have e1 : h1 = (add_post x s).1 := by rw [h2]
      have e2 : s1 = (add_post x s).2 := by rw [h2]
      rw [e1, e2]
      exact add_post_keeps_id x s

/-- C5 (witness): a never-occupied slot of a fresh container has generation
`0`, and the handle returned by the first `add` carries exactly the
generation still stored in its slot. -/
theorem C5_witness :
    ((slotmap_init (fun _ => (⟨0, 0⟩ : key_t))
        (fun _ => (⟨0, 0⟩ : item_store_t Nat))).keys 5).item_id = 0 ∧
    (⟨0, 0⟩ : handle_t).item_id = (s9.keys 0).item_id :=
  ⟨C5_amended_add_generation.1 Nat (fun _ => ⟨0, 0⟩) (fun _ => ⟨0, 0⟩) 5 (by decide),
   C5_amended_add_generation.2 Nat 7 init0 ⟨0, 0⟩ s9 (by rfl)⟩

/-! ## C6 -/

lemma iterRemoves_spec {α : Type} (td : Bool) (slot : Nat) :
    ∀ (n : Nat) (s : State α), slot < s.key_count → (s.keys slot).item_id < W →
      ((iterRemoves td slot n s).keys slot).item_id = ((s.keys slot).item_id + n) % W ∧
      (iterRemoves td slot n s).key_count = s.key_count := by
  intro n
  induction n with
  | zero =>
    intro s h1 h2
    refine ⟨?_, rfl⟩
    rw [Nat.add_zero, Nat.mod_eq_of_lt h2]
    rfl
  | succ n ih =>
    intro s h1 h2
    obtain ⟨-, hkc, hid⟩ :=
      remove_success_state td ⟨slot, (s.keys slot).item_id⟩ s h1 rfl
    have hid2 : ((remove td ⟨slot, (s.keys slot).item_id⟩ s).2.keys slot).item_id =
        ((s.keys slot).item_id + 1) % W := hid
    have hstep : iterRemoves td slot (n + 1) s =
        iterRemoves td slot n (remove td ⟨slot, (s.keys slot).item_id⟩ s).2 := rfl
    have h1' : slot < (remove td ⟨slot, (s.keys slot).item_id⟩ s).2.key_count := by
      rw [hkc]
      exact h1
    have hlt : ((remove td ⟨slot, (s.keys slot).item_id⟩ s).2.keys slot).item_id < W := by
      rw [hid2]
      exact Nat.mod_lt _ (by decide)
    obtain ⟨ha, hb⟩ := ih (remove td ⟨slot, (s.keys slot).item_id⟩ s).2 h1' hlt
    constructor
    · rw [hstep, ha, hid2]
      simp only [W]
      omega
    · rw [hstep, hb, hkc]

lemma valid_slot0 {α : Type} (X : State α)
    (hkcX : 0 < X.key_count) (hvalX : (X.keys 0).item_id = 0) :
    is_valid_handle ⟨0, 0⟩ X = true := by
  have hg : ¬ ((⟨0, 0⟩ : handle_t).key_offset ≥ X.key_count) := by
    show ¬ (0 ≥ X.key_count)
    omega
  have hne : ¬ ((⟨0, 0⟩ : handle_t).item_id ≠ (X.keys (⟨0, 0⟩ : handle_t).key_offset).item_id) := by
    show ¬ ((0 : Nat) ≠ (X.keys 0).item_id)
    rw [hvalX]
    exact fun hc => hc rfl
  unfold is_valid_handle
  rw [if_neg hg, if_neg hne]

/-- C6 (counterexample): the handle `{0, 0}` is issued by the first `add` on a
fresh container, invalidated by a successful `remove`, and — after a further
`2^32 - 1` `remove` calls on slot 0, each passing the slot's then-current
generation and each returning normally — passes `is_valid_handle` again: the
generation counter wraps around with no assertion-style check anywhere on the
path. -/
theorem C6_counterexample :
    (add 7 init0).map Prod.fst = some ⟨0, 0⟩ ∧
    (remove false ⟨0, 0⟩ s9).1 = true ∧
    is_valid_handle ⟨0, 0⟩ s6start = false ∧
    is_valid_handle ⟨0, 0⟩ (iterRemoves false 0 (W - 1) s6start) = true := by
  refine ⟨by decide, by decide, by decide, ?_⟩
  have h1 : (0 : Nat) < s6start.key_count := by decide
  have h2 : (s6start.keys 0).item_id = 1 := by decide
  have hlt : (s6start.keys 0).item_id < W := by
    rw [h2]
    decide
  obtain ⟨ha, hb⟩ := iterRemoves_spec false 0 (W - 1) s6start h1 hlt
  have hval : ((iterRemoves false 0 (W - 1) s6start).keys 0).item_id = 0 := by
    rw [ha, h2]
    decide
  have hkc : (0 : Nat) < (iterRemoves false 0 (W - 1) s6start).key_count := by
    rw [hb]
    exact h1
  exact valid_slot0 _ hkc hval

/-- C6 (amended): generation wraparound is not detected by any assertion:
a successful `remove` increments the slot's generation modulo `2^32` and
returns normally (the function is total — the source comments
"might wrap around"), so `2^32` frees of one slot silently restore an old
generation and a previously issued handle validates again (see the
counterexample); the only assertion-style check in this area guards key-space
exhaustion in `expand_allocation`, not generation wraparound. -/
theorem C6_amended_generation_wrap {α : Type} (td : Bool) (h : handle_t) (s : State α)
    (hs : (remove td h s).1 = true) :
    ((remove td h s).2.keys h.key_offset).item_id = ((s.keys h.key_offset).item_id + 1) % W := by
  obtain ⟨g1, g2⟩ := remove_guards td h s hs
  exact (remove_success_state td h s g1 g2).2.2

/-- C6 (witness): the modular generation bump evaluated at the first
successful remove on a one-item container. -/
theorem C6_witness :
    ((remove false ⟨0, 0⟩ s9).2.keys 0).item_id = ((s9.keys 0).item_id + 1) % W :=
  C6_amended_generation_wrap false ⟨0, 0⟩ s9 (by decide)

/-! ## C8 -/

/-- C8: round-trip — in any state whose free-list head lies inside the key
table (true of every reachable state), if `add(x)` succeeds with handle `h1`
and post-state `s1`, then `operator[]` on `h1` immediately returns the stored
value `x` (a non-null result equal to the inserted item). -/
theorem C8_round_trip {α : Type} (x : α) (s : State α) (h1 : handle_t) (s1 : State α)
    (hh : s.freelist_head < s.key_count) (ha : add x s = some (h1, s1)) :
    lookup h1 s1 = some x := by
  simp only [add] at ha
  split_ifs at ha with g
  · cases he : expand_allocation s with
    | none =>
      rw [he] at ha
      simp at ha
    | some s2 =>
      rw [he] at ha
      simp only [Option.map_some'] at ha
      have h2 := Option.some.inj ha
      have e1 : h1 = (add_post x s2).1 := by rw [h2]
      have e2 : s1 = (add_post x s2).2 := by rw [h2]
      rw [e1, e2]
      obtain ⟨hhd, -, hkc⟩ := expand_shape s s2 he
      exact lookup_add_post x s2 (by rw [hhd, hkc]; omega)
  · have h2 := Option.some.inj ha
    have e1 : h1 = (add_post x s).1 := by rw [h2]
    have e2 : s1 = (add_post x s).2 := by rw [h2]
    rw [e1, e2]
    exact lookup_add_post x s hh

/-- C8 (witness): `add(7)` on the fresh container returns handle `{0, 0}`
and looking it up yields `7`. -/
theorem C8_witness : lookup ⟨0, 0⟩ s9 = some 7 :=
  C8_round_trip 7 init0 ⟨0, 0⟩ s9 (by decide) (by rfl)

/-! ## C9 -/

/-- C9: invalidation — immediately after a `remove(h)` that returns `true`,
`operator[](h)` returns null, `is_valid_handle(h)` is `false`, and a second
`remove(h)` returns `false` (the slot's generation was bumped and can never
equal the handle's generation again, the modulus `2^32` being larger than 1). -/
theorem C9_invalidation {α : Type} (td : Bool) (h : handle_t) (s : State α)
    (hs : (remove td h s).1 = true) :
    lookup h (remove td h s).2 = none ∧
    is_valid_handle h (remove td h s).2 = false ∧
    (remove td h (remove td h s).2).1 = false := by
  obtain ⟨g1, g2⟩ := remove_guards td h s hs
  obtain ⟨-, hkc, hid⟩ := remove_success_state td h s g1 g2
  have hne : h.item_id ≠ ((remove td h s).2.keys h.key_offset).item_id := by
    rw [hid, ← g2]
    exact succ_mod_ne _
  have hg : ¬ (h.key_offset ≥ (remove td h s).2.key_count) := by
    simp only [ge_iff_le, hkc]
    omega
  refine ⟨?_, ?_, ?_⟩
  · simp only [lookup]
    rw [if_neg hg, if_pos hne]
  · simp only [is_valid_handle]
    rw [if_neg hg, if_pos hne]
  · generalize hgen : (remove td h s).2 = X at hg hne
    simp only [remove]
    rw [if_neg hg, if_pos hne]

/-- C9 (witness): removing the single item of a one-item container, then
checking all three rejections on the same handle. -/
theorem C9_witness :
    lookup ⟨0, 0⟩ (remove false ⟨0, 0⟩ s9).2 = none ∧
    is_valid_handle ⟨0, 0⟩ (remove false ⟨0, 0⟩ s9).2 = false ∧
    (remove false ⟨0, 0⟩ (remove false ⟨0, 0⟩ s9).2).1 = false :=
  C9_invalidation false ⟨0, 0⟩ s9 (by decide)

end Slotmap
